import Mathlib

/-!
Verification of `connector.py` (LMudrek/github-query).

The script builds a GitHub code-search query, percent-encodes the free-text
term with `urllib.parse.quote`, issues one `search_code` call with two
qualifiers, and for each match record parses `decoded_content` as JSON and
prints four lines.  We embed the script and the relevant behaviour of the
standard-library collaborators (`urllib.parse.quote`, `json.loads`, Python
`str()` conversion) shallowly, and prove the specification's claims.

Python strings are modelled as lists of Unicode scalar values (`List Char`);
Python's lone-surrogate code points are not representable, a corner no claim
touches.
-/

namespace GithubQuery

/-- Model of a Python `str`: a list of Unicode scalar values. -/
abbrev PyStr := List Char

/-- Convenience: build a `PyStr` from a Lean string literal. -/
def pstr (s : String) : PyStr := s.data

/-! ## Model of `urllib.parse.quote` / `urllib.parse.unquote`

`urllib.parse.quote(string, safe='/')` encodes the string to UTF-8 bytes and
replaces every byte outside `ALWAYS_SAFE ∪ safe` by `%XX` (uppercase hex).
`ALWAYS_SAFE` is ASCII letters, digits and `_.-~`; the default `safe` is `/`.
-/

/-- UTF-8 encoding of one Unicode scalar value (as its code point). -/
def utf8EncodeChar (c : Char) : List Nat :=
  let n := c.toNat
  if n < 0x80 then [n]
  else if n < 0x800 then [0xC0 + n / 64, 0x80 + n % 64]
  else if n < 0x10000 then
    [0xE0 + n / 4096, 0x80 + (n / 64) % 64, 0x80 + n % 64]
  else
    [0xF0 + n / 262144, 0x80 + (n / 4096) % 64, 0x80 + (n / 64) % 64, 0x80 + n % 64]

/-- UTF-8 encoding of a string, byte list. -/
def utf8Encode (s : PyStr) : List Nat :=
  (s.map utf8EncodeChar).flatten

/-- Bytes `quote` leaves unescaped: ASCII letters, digits, `_.-~` (Python's
`ALWAYS_SAFE`) plus the default `safe='/'`. -/
def isSafeByte (b : Nat) : Bool :=
  (0x41 ≤ b && b ≤ 0x5A) || (0x61 ≤ b && b ≤ 0x7A) || (0x30 ≤ b && b ≤ 0x39) ||
  b = 0x5F || b = 0x2E || b = 0x2D || b = 0x7E || b = 0x2F

/-- Uppercase hexadecimal digit for `n < 16`. -/
def hexDigitChar (n : Nat) : Char :=
  if n < 10 then Char.ofNat (48 + n) else Char.ofNat (55 + n)

/-- How `quote` renders one byte: literally when safe, else `%XX`. -/
def quoteByte (b : Nat) : List Char :=
  if isSafeByte b then [Char.ofNat b]
  else ['%', hexDigitChar (b / 16), hexDigitChar (b % 16)]

/-- Model of `urllib.parse.quote` with its default `safe='/'`, as used at
`connector.py` line 10. -/
def quote (s : PyStr) : PyStr :=
  ((utf8Encode s).map quoteByte).flatten

/-- Value of a hexadecimal digit character, either case (as `unquote` accepts). -/
def hexVal (c : Char) : Option Nat :=
  let n := c.toNat
  if 48 ≤ n && n ≤ 57 then some (n - 48)
  else if 65 ≤ n && n ≤ 70 then some (n - 55)
  else if 97 ≤ n && n ≤ 102 then some (n - 87)
  else none

mutual

/-- Percent-decoding to bytes: `%XX` becomes the byte `XX`; a `%` not followed
by two hex digits, and every other character, passes through as its UTF-8
bytes (Python's `unquote` likewise passes such characters through). -/
def percentDecode : List Char → List Nat
  | [] => []
  | c :: rest =>
    if c = '%' then percentEscape rest
    else utf8EncodeChar c ++ percentDecode rest
termination_by s => (s.length, 0)
decreasing_by all_goals (simp [Prod.lex_def])

/-- Decode what follows a `%`: two hex digits give the byte; anything else
lets the `%` pass through as a literal. -/
def percentEscape : List Char → List Nat
  | c1 :: c2 :: rest =>
    match hexVal c1, hexVal c2 with
    | some h1, some h2 => (16 * h1 + h2) :: percentDecode rest
    | _, _ => utf8EncodeChar '%' ++ percentDecode (c1 :: c2 :: rest)
  | short => utf8EncodeChar '%' ++ percentDecode short
termination_by s => (s.length, 1)
decreasing_by all_goals (simp [Prod.lex_def] <;> omega)

end

/-- Whether a byte is a UTF-8 continuation byte `10xxxxxx`. -/
def isContByte (b : Nat) : Bool := 0x80 ≤ b && b < 0xC0

mutual

/-- UTF-8 decoding of a byte list into code points; `none` on malformed input
(where CPython's `errors='replace'` would substitute U+FFFD instead — the two
agree wherever decoding succeeds, which covers every output of `quote`).  A
lead byte announces its count of continuation bytes, consumed by
`utf8DecodeTail`. -/
def utf8Decode : List Nat → Option (List Nat)
  | [] => some []
  | b :: rest =>
    if b < 0x80 then (utf8Decode rest).map (b :: ·)
    else if b < 0xC0 then none
    else if b < 0xE0 then utf8DecodeTail 1 (b - 0xC0) rest
    else if b < 0xF0 then utf8DecodeTail 2 (b - 0xE0) rest
    else if b < 0xF8 then utf8DecodeTail 3 (b - 0xF0) rest
    else none
termination_by s => (s.length, 0)
decreasing_by all_goals (simp [Prod.lex_def])

/-- Consume `k` continuation bytes, accumulating six payload bits per byte
onto `acc`, then emit the code point and decode the remainder. -/
def utf8DecodeTail : Nat → Nat → List Nat → Option (List Nat)
  | 0, acc, rest => (utf8Decode rest).map (acc :: ·)
  | k + 1, acc, b :: rest =>
    if isContByte b then utf8DecodeTail k (acc * 64 + (b - 0x80)) rest else none
  | _ + 1, _, [] => none
termination_by _ _ s => (s.length, 1)
decreasing_by all_goals (simp [Prod.lex_def])

end

/-- Model of `urllib.parse.unquote`: percent-decode to bytes, then UTF-8
decode back to code points. -/
def unquote (s : PyStr) : Option (List Nat) :=
  utf8Decode (percentDecode s)

/-- Code points of a string, for stating the round trip. -/
def codePoints (s : PyStr) : List Nat := s.map Char.toNat

/-! ## Model of `json.loads`

Python values produced by `json.loads`: `null` → `None`, booleans, numbers
(`int` when the literal has no fraction or exponent, `float` otherwise —
floats are carried as their source lexeme), strings, arrays → `list`,
objects → `dict` (modelled as the entry list in source order; on duplicate
keys the last entry wins, as for a Python `dict`). -/
inductive JValue where
  | jnull
  | jbool (b : Bool)
  | jint (n : Int)
  | jfloat (lexeme : PyStr)
  | jstr (s : PyStr)
  | jarr (elems : List JValue)
  | jobj (entries : List (PyStr × JValue))

/-- Error raised by the JSON decoder: its message (positions are not
modelled). -/
abbrev JsonErr := PyStr

/-- Skip JSON whitespace (space, tab, newline, carriage return). -/
def skipWs : List Char → List Char
  | c :: rest =>
    if c = ' ' ∨ c = '\t' ∨ c = '\n' ∨ c = '\r' then skipWs rest else c :: rest
  | [] => []

/-- Longest digit prefix of a character list, and the remainder. -/
def spanDigits : List Char → List Char × List Char
  | c :: rest =>
    if c.isDigit then
      let (ds, r) := spanDigits rest
      (c :: ds, r)
    else ([], c :: rest)
  | [] => ([], [])

/-- Natural number denoted by a list of decimal digits. -/
def digitsToNat (ds : List Char) : Nat :=
  ds.foldl (fun a c => 10 * a + (c.toNat - 48)) 0

/-- Parse a JSON number starting at the head of the input, following the
decoder's `NUMBER_RE`: `-?(0|[1-9][0-9]*)(\.[0-9]+)?([eE][-+]?[0-9]+)?`.
An integer literal yields a Python `int`, otherwise a `float` (kept as its
lexeme). -/
def parseNumber (s : List Char) : Except JsonErr (JValue × List Char) :=
  let (signChars, s1) := match s with
    | '-' :: rest => (['-'], rest)
    | _ => ([], s)
  match s1 with
  | c :: rest =>
    if c = '0' ∨ ('1' ≤ c ∧ c ≤ '9') then
      let (ds, s2) := if c = '0' then ([], rest) else spanDigits rest
      let intChars := c :: ds
      let (fracChars, s3) := match s2 with
        | '.' :: d :: r =>
          if d.isDigit then
            let (fs, r2) := spanDigits r
            ('.' :: d :: fs, r2)
          else ([], s2)
        | _ => ([], s2)
      let (expChars, s4) := match s3 with
        | e :: r =>
          if e = 'e' ∨ e = 'E' then
            match r with
            | sg :: d :: r2 =>
              if (sg = '+' ∨ sg = '-') ∧ d.isDigit then
                let (es, r3) := spanDigits r2
                (e :: sg :: d :: es, r3)
              else if sg.isDigit then
                let (es, r3) := spanDigits (d :: r2)
                (e :: sg :: es, r3)
              else ([], s3)
            | [sg] =>
              if sg.isDigit then ([e, sg], []) else ([], s3)
            | [] => ([], s3)
          else ([], s3)
        | [] => ([], s3)
      if fracChars = [] ∧ expChars = [] then
        let n : Int := Int.ofNat (digitsToNat intChars)
        .ok (.jint (if signChars = [] then n else -n), s4)
      else
        .ok (.jfloat (signChars ++ intChars ++ fracChars ++ expChars), s4)
    else .error (pstr "Expecting value")
  | [] => .error (pstr "Expecting value")

/-- Decode the four hex digits of a `\uXXXX` escape. -/
def hex4 (a b c d : Char) : Option Nat := do
  let va ← hexVal a
  let vb ← hexVal b
  let vc ← hexVal c
  let vd ← hexVal d
  pure (va * 4096 + vb * 256 + vc * 16 + vd)

/-- Parse the body of a JSON string after the opening quote, in the decoder's
strict mode: unescaped control characters are rejected, the eight short
escapes and `\uXXXX` (with surrogate-pair combination) are honoured.  A lone
surrogate — which Python keeps in the `str` — is not a Unicode scalar value;
`Char.ofNat` maps it to U+0000, a corner no claim touches.  The fuel bounds
recursion; every step consumes input, so `length + 1` always suffices. -/
def parseStringBody : Nat → List Char → List Char → Except JsonErr (PyStr × List Char)
  | 0, _, _ => .error (pstr "Recursion limit")
  | _ + 1, acc, '"' :: rest => .ok (acc.reverse, rest)
  | fuel + 1, acc, '\\' :: 'u' :: h1 :: h2 :: h3 :: h4 :: rest =>
    match hex4 h1 h2 h3 h4 with
    | none => .error (pstr "Invalid \\uXXXX escape")
    | some n =>
      if 0xD800 ≤ n ∧ n ≤ 0xDBFF then
        match rest with
        | '\\' :: 'u' :: g1 :: g2 :: g3 :: g4 :: rest2 =>
          match hex4 g1 g2 g3 g4 with
          | some m =>
            if 0xDC00 ≤ m ∧ m ≤ 0xDFFF then
              parseStringBody fuel
                (Char.ofNat (0x10000 + (n - 0xD800) * 1024 + (m - 0xDC00)) :: acc) rest2
            else parseStringBody fuel (Char.ofNat m :: Char.ofNat n :: acc) rest2
          | none => .error (pstr "Invalid \\uXXXX escape")
        | other => parseStringBody fuel (Char.ofNat n :: acc) other
      else parseStringBody fuel (Char.ofNat n :: acc) rest
  | fuel + 1, acc, '\\' :: e :: rest =>
    if e = '"' then parseStringBody fuel ('"' :: acc) rest
    else if e = '\\' then parseStringBody fuel ('\\' :: acc) rest
    else if e = '/' then parseStringBody fuel ('/' :: acc) rest
    else if e = 'b' then parseStringBody fuel (Char.ofNat 8 :: acc) rest
    else if e = 'f' then parseStringBody fuel (Char.ofNat 12 :: acc) rest
    else if e = 'n' then parseStringBody fuel ('\n' :: acc) rest
    else if e = 'r' then parseStringBody fuel (Char.ofNat 13 :: acc) rest
    else if e = 't' then parseStringBody fuel ('\t' :: acc) rest
    else .error (pstr "Invalid escape")
  | fuel + 1, acc, c :: rest =>
    if c.toNat < 0x20 then .error (pstr "Invalid control character")
    else parseStringBody fuel (c :: acc) rest
  | _ + 1, _, [] => .error (pstr "Unterminated string")

/-- Insert one key/value pair as `d[k] = v` does: replace in place when the
key is present, else append. -/
def dictInsert (d : List (PyStr × JValue)) (k : PyStr) (v : JValue) :
    List (PyStr × JValue) :=
  if d.any (fun e => decide (e.1 = k)) then
    d.map (fun e => if e.1 = k then (k, v) else e)
  else d ++ [(k, v)]

/-- Build a `dict` from a pair list, as `dict(pairs)` does: first-occurrence
key order, last value wins. -/
def dictOf (entries : List (PyStr × JValue)) : List (PyStr × JValue) :=
  entries.foldl (fun d e => dictInsert d e.1 e.2) []

/-- Lookup `d[k]` in a dict whose keys are unique. -/
def dictGet (d : List (PyStr × JValue)) (k : PyStr) : Option JValue :=
  (d.find? (fun e => decide (e.1 = k))).map (fun e => e.2)

mutual

/-- Parse one JSON value (after skipping leading whitespace).  The fuel
argument only bounds recursion depth; `loads` supplies enough for any input. -/
def parseValue : Nat → List Char → Except JsonErr (JValue × List Char)
  | 0, _ => .error (pstr "Recursion limit")
  | fuel + 1, s =>
    match skipWs s with
    | [] => .error (pstr "Expecting value")
    | 'n' :: 'u' :: 'l' :: 'l' :: rest => .ok (.jnull, rest)
    | 't' :: 'r' :: 'u' :: 'e' :: rest => .ok (.jbool true, rest)
    | 'f' :: 'a' :: 'l' :: 's' :: 'e' :: rest => .ok (.jbool false, rest)
    | 'N' :: 'a' :: 'N' :: rest => .ok (.jfloat (pstr "NaN"), rest)
    | 'I' :: 'n' :: 'f' :: 'i' :: 'n' :: 'i' :: 't' :: 'y' :: rest =>
      .ok (.jfloat (pstr "Infinity"), rest)
    | '-' :: 'I' :: 'n' :: 'f' :: 'i' :: 'n' :: 'i' :: 't' :: 'y' :: rest =>
      .ok (.jfloat (pstr "-Infinity"), rest)
    | '"' :: rest =>
      match parseStringBody (rest.length + 1) [] rest with
      | .ok (str, rest2) => .ok (.jstr str, rest2)
      | .error e => .error e
    | '[' :: rest =>
      match skipWs rest with
      | ']' :: rest2 => .ok (.jarr [], rest2)
      | s2 => match parseElems fuel s2 with
        | .ok (xs, rest2) => .ok (.jarr xs, rest2)
        | .error e => .error e
    | '\x7b' :: rest =>
      match skipWs rest with
      | '\x7d' :: rest2 => .ok (.jobj [], rest2)
      | s2 => match parseMembers fuel s2 with
        | .ok (kvs, rest2) => .ok (.jobj (dictOf kvs), rest2)
        | .error e => .error e
    | c :: rest =>
      if c = '-' ∨ c.isDigit then parseNumber (c :: rest)
      else .error (pstr "Expecting value")

/-- Parse the non-empty element list of a JSON array, up to and including the
closing bracket. -/
def parseElems : Nat → List Char → Except JsonErr (List JValue × List Char)
  | 0, _ => .error (pstr "Recursion limit")
  | fuel + 1, s =>
    match parseValue fuel s with
    | .error e => .error e
    | .ok (v, rest) =>
      match skipWs rest with
      | ',' :: rest2 =>
        match parseElems fuel rest2 with
        | .ok (xs, rest3) => .ok (v :: xs, rest3)
        | .error e => .error e
      | ']' :: rest2 => .ok ([v], rest2)
      | _ => .error (pstr "Expecting comma delimiter")

/-- Parse the non-empty member list of a JSON object, up to and including the
closing brace. -/
def parseMembers : Nat → List Char → Except JsonErr (List (PyStr × JValue) × List Char)
  | 0, _ => .error (pstr "Recursion limit")
  | fuel + 1, s =>
    match s with
    | '"' :: rest =>
      match parseStringBody (rest.length + 1) [] rest with
      | .error e => .error e
      | .ok (key, rest2) =>
        match skipWs rest2 with
        | ':' :: rest3 =>
          match parseValue fuel rest3 with
          | .error e => .error e
          | .ok (v, rest4) =>
            match skipWs rest4 with
            | ',' :: rest5 =>
              match parseMembers fuel (skipWs rest5) with
              | .ok (kvs, rest6) => .ok ((key, v) :: kvs, rest6)
              | .error e => .error e
            | '\x7d' :: rest5 => .ok ([(key, v)], rest5)
            | _ => .error (pstr "Expecting comma delimiter")
        | _ => .error (pstr "Expecting colon delimiter")
    | _ => .error (pstr "Expecting property name enclosed in double quotes")

end

/-- Model of `json.loads`: parse one value and require only whitespace after
it.  The fuel `2 * length + 2` exceeds the recursion any input can perform. -/
def loads (s : PyStr) : Except JsonErr JValue :=
  match parseValue (2 * s.length + 2) s with
  | .error e => .error e
  | .ok (v, rest) =>
    match skipWs rest with
    | [] => .ok v
    | _ => .error (pstr "Extra data")

/-! ## Model of Python `str()` conversion -/

/-- Decimal representation of a Python `int`. -/
def intRepr : Int → PyStr
  | .ofNat m => Nat.toDigits 10 m
  | .negSucc m => '-' :: Nat.toDigits 10 (m + 1)

/-- Lowercase hexadecimal digit for `n < 16`. -/
def hexLower (n : Nat) : Char :=
  if n < 10 then Char.ofNat (48 + n) else Char.ofNat (87 + n)

/-- One character inside a Python string repr with quote character `q`:
backslash-escape the quote, backslashes and common control characters
(other non-printable code points are not modelled). -/
def reprStrChar (q : Char) (c : Char) : List Char :=
  if c = '\\' ∨ c = q then ['\\', c]
  else if c = '\n' then ['\\', 'n']
  else if c = Char.ofNat 13 then ['\\', 'r']
  else if c = '\t' then ['\\', 't']
  else if c.toNat < 0x20 ∨ c.toNat = 0x7F then
    ['\\', 'x', hexLower (c.toNat / 16), hexLower (c.toNat % 16)]
  else [c]

/-- Python `repr` of a `str`: single-quoted, except double-quoted when the
string contains a single quote but no double quote. -/
def reprStr (s : PyStr) : PyStr :=
  let q := if s.contains (Char.ofNat 39) ∧ ¬ s.contains '"' then '"' else Char.ofNat 39
  q :: (s.map (reprStrChar q)).flatten ++ [q]

/-- Join with `", "`, as Python container reprs do. -/
def commaSep (parts : List PyStr) : PyStr :=
  List.intercalate (pstr ", ") parts

mutual

/-- Python `repr` of a value produced by `json.loads`.  Floats are shown as
their source lexeme (CPython would normalise, e.g. `1.50` prints as `1.5`;
no claim prints a float). -/
def pyRepr : JValue → PyStr
  | .jnull => pstr "None"
  | .jbool true => pstr "True"
  | .jbool false => pstr "False"
  | .jint n => intRepr n
  | .jfloat lex => lex
  | .jstr s => reprStr s
  | .jarr xs => '[' :: commaSep (pyReprList xs) ++ [']']
  | .jobj d => Char.ofNat 123 :: commaSep (pyReprEntries d) ++ [Char.ofNat 125]

/-- Reprs of the elements of a list. -/
def pyReprList : List JValue → List PyStr
  | [] => []
  | v :: vs => pyRepr v :: pyReprList vs

/-- Reprs of the `key: value` entries of a dict. -/
def pyReprEntries : List (PyStr × JValue) → List PyStr
  | [] => []
  | (k, v) :: kvs => (reprStr k ++ ':' :: ' ' :: pyRepr v) :: pyReprEntries kvs

end

/-- Python `str()` conversion, as an f-string placeholder performs: a `str`
passes through unchanged, every other value falls back to its repr. -/
def pyStrOf : JValue → PyStr
  | .jstr s => s
  | v => pyRepr v

/-! ## Model of the script `connector.py`

The script runs top to bottom once: build the query, call `search_code`,
then loop over the yielded match records.  The remote service is the only
external input; a run is therefore a function of the search outcome — either
the call raises, or it yields a finite sequence of match records (the lazy
paged iteration, consumed in order). -/

/-- The attributes of `result.repository` the script consumes. -/
structure Repository where
  full_name : PyStr

/-- One search hit, with the attributes the script consumes.
`decoded_content` is its textual file content. -/
structure MatchRecord where
  repository : Repository
  path : PyStr
  html_url : PyStr
  decoded_content : PyStr

/-- Exceptions the run can leave uncaught. -/
inductive PyError where
  | jsonDecodeError (msg : JsonErr)
  | keyError (key : PyStr)
  | typeError
  | apiError (msg : PyStr)

/-- Python subscription `v[k]` with a string key, as line 22 performs twice:
a dict either yields the value or raises `KeyError`; subscribing any other
JSON-produced value with a string raises `TypeError`. -/
def getItem (v : JValue) (k : PyStr) : Except PyError JValue :=
  match v with
  | .jobj d =>
    match dictGet d k with
    | some w => .ok w
    | none => .error (.keyError k)
  | _ => .error .typeError

/-- The loop body for one match record (`connector.py` lines 21-27): parse
`decoded_content`, extract `dependencies` then `angular`, and on success
produce the four printed lines.  The extraction precedes all four prints, so
a failing record prints nothing. -/
def processRecord (r : MatchRecord) : Except PyError (List PyStr) :=
  match loads r.decoded_content with
  | .error e => .error (.jsonDecodeError e)
  | .ok parsed =>
    match getItem parsed (pstr "dependencies") with
    | .error e => .error e
    | .ok deps =>
      match getItem deps (pstr "angular") with
      | .error e => .error e
      | .ok angular_js_version =>
        .ok [pstr "Repository: " ++ r.repository.full_name,
             pstr "File path: " ++ r.path,
             pstr "URL: " ++ r.html_url,
             pstr "Angular JS: " ++ pyStrOf angular_js_version]

/-- The result loop: lines printed to standard output, and the uncaught
exception if one is raised.  A failure stops the loop; earlier records'
lines stay printed. -/
def runLoop : List MatchRecord → List PyStr × Option PyError
  | [] => ([], none)
  | r :: rs =>
    match processRecord r with
    | .error e => ([], some e)
    | .ok ls =>
      let (out, err) := runLoop rs
      (ls ++ out, err)

/-- The free-text search term (`connector.py` line 9). -/
def query : PyStr := pstr "angular"

/-- The percent-encoded term (`connector.py` line 10). -/
def encoded_query : PyStr := quote query

/-- The qualifier mapping (`connector.py` lines 12-15). -/
def qualifiers : List (PyStr × PyStr) :=
  [(pstr "filename", pstr "package.json"),
   (pstr "repo", pstr "gothinkster/angularjs-realworld-example-app")]

/-- The arguments of one `search_code` invocation. -/
structure SearchCall where
  query : PyStr
  sort : PyStr
  order : PyStr
  highlight : Bool
  qualifiers : List (PyStr × PyStr)

/-- The one search call the script issues (`connector.py` line 18). -/
def theSearchCall : SearchCall :=
  ⟨encoded_query, pstr "indexed", pstr "asc", true, qualifiers⟩

/-- The external input of a run: the search call either raises, or yields a
finite sequence of match records. -/
inductive SearchOutcome where
  | failure (e : PyError)
  | success (records : List MatchRecord)

/-- Observable result of one run: the search calls issued, the lines written
to standard output, and the uncaught exception if any. -/
structure ProgramResult where
  searchCalls : List SearchCall
  stdoutLines : List PyStr
  uncaught : Option PyError

/-- One whole run of `connector.py` as a function of the search outcome. -/
def runProgram : SearchOutcome → ProgramResult
  | .failure e => ⟨[theSearchCall], [], some e⟩
  | .success records =>
    let (out, err) := runLoop records
    ⟨[theSearchCall], out, err⟩

/-- Process exit status: 0 on normal completion, 1 (abnormal) when an
uncaught exception reaches the interpreter boundary. -/
def exitCode (res : ProgramResult) : Nat :=
  match res.uncaught with
  | none => 0
  | some _ => 1

/-! ## Reserved and unreserved URL characters (RFC 3986), for the
query-encoding claims. -/

/-- The reserved URL characters: the gen-delims and sub-delims of RFC 3986. -/
def reservedUrlChars : List Char :=
  [':', '/', '?', '#', '[', ']', '@', '!', '$', '&', Char.ofNat 39,
   '(', ')', '*', '+', ',', ';', '=']

/-- ASCII alphanumeric characters (stated on code points). -/
def isAlphanumChar (c : Char) : Bool :=
  (0x41 ≤ c.toNat && c.toNat ≤ 0x5A) || (0x61 ≤ c.toNat && c.toNat ≤ 0x7A) ||
  (0x30 ≤ c.toNat && c.toNat ≤ 0x39)

/-- The unreserved (always URL-safe) characters of RFC 3986: alphanumerics
and `-._~`. -/
def isUnreservedChar (c : Char) : Bool :=
  isAlphanumChar c || c = '-' || c = '.' || c = '_' || c = '~'

set_option maxRecDepth 8192

/-! ## Lemmas on the percent-encoding round trip -/

theorem char_toNat_lt (c : Char) : c.toNat < 1114112 := by
  have h := c.valid
  simp [UInt32.isValidChar, Nat.isValidChar] at h
  rcases h with h | h <;> simp [Char.toNat] <;> omega

theorem toNat_ofNat_of_lt (n : Nat) (h : n < 55296) : (Char.ofNat n).toNat = n := by
  simp [Char.ofNat, Char.toNat, Nat.isValidChar, h, Char.ofNatAux, UInt32.toNat,
    BitVec.toNat_ofNatLt]

theorem utf8Decode_encodeChar (c : Char) (bs : List Nat) :
    utf8Decode (utf8EncodeChar c ++ bs) = (utf8Decode bs).map (c.toNat :: ·) := by
  have hlt := char_toNat_lt c
  simp only [utf8EncodeChar]
  split_ifs with h1 h2 h3
  · rw [List.cons_append, List.nil_append, utf8Decode, if_pos h1]
  · rw [List.cons_append, List.cons_append, List.nil_append, utf8Decode]
    rw [if_neg (by omega), if_neg (by omega), if_pos (by omega)]
    rw [utf8DecodeTail, if_pos (by simp [isContByte]; omega), utf8DecodeTail]
    congr 1
    funext l
    congr 1
    omega
  · rw [List.cons_append, List.cons_append, List.cons_append, List.nil_append, utf8Decode]
    rw [if_neg (by omega), if_neg (by omega), if_neg (by omega), if_pos (by omega)]
    rw [utf8DecodeTail, if_pos (by simp [isContByte]; omega)]
    rw [utf8DecodeTail, if_pos (by simp [isContByte]; omega), utf8DecodeTail]
    congr 1
    funext l
    congr 1
    omega
  · rw [List.cons_append, List.cons_append, List.cons_append, List.cons_append,
      List.nil_append, utf8Decode]
    rw [if_neg (by omega), if_neg (by omega), if_neg (by omega), if_neg (by omega),
      if_pos (by omega)]
    rw [utf8DecodeTail, if_pos (by simp [isContByte]; omega)]
    rw [utf8DecodeTail, if_pos (by simp [isContByte]; omega)]
    rw [utf8DecodeTail, if_pos (by simp [isContByte]; omega), utf8DecodeTail]
    congr 1
    funext l
    congr 1
    omega

theorem utf8Decode_utf8Encode (s : PyStr) :
    utf8Decode (utf8Encode s) = some (codePoints s) := by
  induction s with
  | nil => simp [utf8Encode, utf8Decode, codePoints]
  | cons c cs ih =>
    simp only [utf8Encode, List.map_cons, List.flatten_cons] at ih ⊢
    rw [utf8Decode_encodeChar, ih]
    rfl

theorem isSafeByte_lt (b : Nat) (h : isSafeByte b = true) : b < 128 := by
  simp [isSafeByte] at h
  omega

theorem hexVal_hexDigitChar (n : Nat) (h : n < 16) :
    hexVal (hexDigitChar n) = some n := by
  interval_cases n <;> rfl

theorem percentDecode_quoteByte (b : Nat) (hb : b < 256) (rest : List Char) :
    percentDecode (quoteByte b ++ rest) = b :: percentDecode rest := by
  by_cases hs : isSafeByte b
  · have hlt : b < 128 := isSafeByte_lt b hs
    have hne : Char.ofNat b ≠ '%' := by
      intro he
      have : (Char.ofNat b).toNat = b := toNat_ofNat_of_lt b (by omega)
      rw [he] at this
      simp [isSafeByte, ← this] at hs
    rw [quoteByte, if_pos hs, List.cons_append, List.nil_append, percentDecode,
      if_neg hne, utf8EncodeChar]
    rw [toNat_ofNat_of_lt b (by omega)]
    rw [if_pos hlt]
    rfl
  · have hb16 : 16 * (b / 16) + b % 16 = b := by omega
    rw [quoteByte, if_neg hs, List.cons_append, List.cons_append, List.cons_append,
      List.nil_append, percentDecode, if_pos rfl]
    simp only [percentEscape, hexVal_hexDigitChar (b / 16) (by omega),
      hexVal_hexDigitChar (b % 16) (by omega), hb16]

theorem utf8EncodeChar_all_lt (c : Char) : ∀ b ∈ utf8EncodeChar c, b < 256 := by
  have h := char_toNat_lt c
  simp only [utf8EncodeChar]
  split_ifs with h1 h2 h3 <;> intro b hb <;> simp at hb <;> omega

theorem percentDecode_quote (s : PyStr) :
    percentDecode (quote s) = utf8Encode s := by
  suffices h : ∀ bs : List Nat, (∀ b ∈ bs, b < 256) →
      percentDecode ((bs.map quoteByte).flatten) = bs by
    apply h
    intro b hb
    simp only [utf8Encode, List.mem_flatten, List.mem_map] at hb
    obtain ⟨l, ⟨c, _, hc⟩, hbl⟩ := hb
    exact utf8EncodeChar_all_lt c b (hc ▸ hbl)
  intro bs
  induction bs with
  | nil => intro _; simp [percentDecode]
  | cons b bs ih =>
    intro hlt
    simp only [List.map_cons, List.flatten_cons]
    rw [percentDecode_quoteByte b (hlt b (by simp)) _, ih]
    intro x hx
    exact hlt x (by simp [hx])

theorem unquote_quote (s : PyStr) : unquote (quote s) = some (codePoints s) := by
  rw [unquote, percentDecode_quote, utf8Decode_utf8Encode]

theorem quote_cons_safe (c : Char) (h : isSafeByte c.toNat = true) (s : PyStr) :
    quote (c :: s) = c :: quote s := by
  have hlt : c.toNat < 128 := isSafeByte_lt _ h
  have henc : utf8EncodeChar c = [c.toNat] := by
    simp only [utf8EncodeChar]
    rw [if_pos hlt]
  simp only [quote, utf8Encode, List.map_cons, List.flatten_cons, henc,
    List.map_append, List.flatten_append, List.map_nil, List.flatten_nil]
  simp [quoteByte, h, Char.ofNat_toNat]

theorem isUnreservedChar_safe (c : Char) (h : isUnreservedChar c = true) :
    isSafeByte c.toNat = true := by
  simp only [isUnreservedChar, isAlphanumChar, Bool.or_eq_true, Bool.and_eq_true,
    decide_eq_true_eq] at h
  rcases h with (((((h | h) | h) | h) | h) | h) | h
  · simp only [isSafeByte, Bool.or_eq_true, Bool.and_eq_true, decide_eq_true_eq]; omega
  · simp only [isSafeByte, Bool.or_eq_true, Bool.and_eq_true, decide_eq_true_eq]; omega
  · simp only [isSafeByte, Bool.or_eq_true, Bool.and_eq_true, decide_eq_true_eq]; omega
  · subst h; decide
  · subst h; decide
  · subst h; decide
  · subst h; decide

/-! ## Claim theorems -/

/-- C6 counterexample: the claim says the query-encoding step percent-encodes
reserved URL characters, but `/` is a reserved character (an RFC 3986
gen-delim) and `urllib.parse.quote`, whose default `safe` set is `'/'`,
leaves it unchanged. -/
theorem quote_reserved_counterexample :
    '/' ∈ reservedUrlChars ∧ quote ['/'] = ['/'] :=
  ⟨by decide, by decide⟩

/-- C6 (amended): the query-encoding step percent-encodes every reserved URL
character except `/` (the default safe character, left unchanged), leaves
alphanumeric characters unchanged, and satisfies the round trip
`decode(encode(x)) = x` for every input string. -/
theorem quote_encoding_properties :
    (∀ c ∈ reservedUrlChars, c ≠ '/' →
      quote [c] = ['%', hexDigitChar (c.toNat / 16), hexDigitChar (c.toNat % 16)]) ∧
    (∀ c : Char, isAlphanumChar c = true → quote [c] = [c]) ∧
    (∀ s : PyStr, unquote (quote s) = some (codePoints s)) := by
  refine ⟨by decide, ?_, unquote_quote⟩
  intro c h
  have hsafe : isSafeByte c.toNat = true := by
    simp only [isSafeByte, Bool.or_eq_true]
    simp only [isAlphanumChar, Bool.or_eq_true] at h
    rcases h with (h | h) | h <;> simp at h ⊢ <;> omega
  rw [quote_cons_safe c hsafe []]
  rfl

/-- C6 witness: the amended theorem applied at the reserved character `:`,
the alphanumeric character `a`, and the free-text term. -/
theorem quote_encoding_properties_witness :
    (':' ∈ reservedUrlChars ∧
      quote [':'] = ['%', hexDigitChar (':'.toNat / 16), hexDigitChar (':'.toNat % 16)]) ∧
    (isAlphanumChar 'a' = true ∧ quote ['a'] = ['a']) ∧
    unquote (quote query) = some (codePoints query) :=
  ⟨⟨by decide, quote_encoding_properties.1 ':' (by decide) (by decide)⟩,
   ⟨by decide, quote_encoding_properties.2.1 'a' (by decide)⟩,
   quote_encoding_properties.2.2 query⟩

/-- C7: the query-encoding step is total in the model (no error conditions);
it is the identity on the empty string and on any string of URL-safe
(unreserved) characters, and the hard-coded term `angular` passes through
unchanged, so `encoded_query` equals `query`. -/
theorem quote_noop_on_safe (s : PyStr) (h : ∀ c ∈ s, isUnreservedChar c = true) :
    quote s = s ∧ quote [] = [] ∧ quote query = query ∧ encoded_query = query := by
  refine ⟨?_, rfl, by decide, by decide⟩
  induction s with
  | nil => rfl
  | cons c cs ih =>
    rw [quote_cons_safe c (isUnreservedChar_safe c (h c (by simp)))]
    rw [ih (fun x hx => h x (by simp [hx]))]

/-- C7 witness: the no-op theorem applied to the concrete safe string `abc`. -/
theorem quote_noop_on_safe_witness :
    quote (pstr "abc") = pstr "abc" ∧ quote [] = [] ∧
    quote query = query ∧ encoded_query = query :=
  quote_noop_on_safe (pstr "abc") (by decide)

/-- C8: the `query` argument of the issued search call is the percent-encoded
term `quote query` (the value bound to `encoded_query`), and percent-encoding
is not idempotent on terms containing unsafe characters, so a client-internal
re-encoding double-encodes in general (for the literal term `angular`
encoding is the identity, so the double encoding is unobservable there). -/
theorem search_call_query_encoded :
    theSearchCall.query = quote query ∧ theSearchCall.query = encoded_query ∧
    quote (quote (pstr "a b")) ≠ quote (pstr "a b") :=
  ⟨rfl, rfl, by decide⟩

/-- C9: every run issues exactly one search request, whose arguments combine
the encoded free-text term with sort key `indexed`, ascending order, the
highlight flag, and exactly the qualifiers `filename=package.json` and
`repo=gothinkster/angularjs-realworld-example-app`. -/
theorem single_search_call (o : SearchOutcome) :
    (runProgram o).searchCalls = [theSearchCall] ∧
    theSearchCall = ⟨quote query, pstr "indexed", pstr "asc", true,
      [(pstr "filename", pstr "package.json"),
       (pstr "repo", pstr "gothinkster/angularjs-realworld-example-app")]⟩ := by
  cases o <;> exact ⟨rfl, rfl⟩

/-- C9 witness: the single-search-call theorem applied to the empty-results
outcome. -/
theorem single_search_call_witness :
    (runProgram (.success [])).searchCalls = [theSearchCall] ∧
    theSearchCall = ⟨quote query, pstr "indexed", pstr "asc", true,
      [(pstr "filename", pstr "package.json"),
       (pstr "repo", pstr "gothinkster/angularjs-realworld-example-app")]⟩ :=
  single_search_call (.success [])

/-! ## Sample match records for the concrete claims -/

/-- A match record whose content is the valid JSON object of the spec's
example. -/
def sampleRecord : MatchRecord :=
  ⟨⟨pstr "owner/repo"⟩, pstr "package.json",
   pstr "https://example/owner/repo/package.json",
   pstr "\x7b\"dependencies\": \x7b\"angular\": \"1.2.3\"\x7d\x7d"⟩

/-- A match record whose content is not valid JSON. -/
def invalidJsonRecord : MatchRecord :=
  ⟨⟨pstr "owner/repo"⟩, pstr "package.json",
   pstr "https://example/owner/repo/package.json", pstr "not json"⟩

/-- A match record whose content is valid JSON without a `dependencies` key. -/
def noDepsRecord : MatchRecord :=
  ⟨⟨pstr "owner/repo"⟩, pstr "package.json",
   pstr "https://example/owner/repo/package.json", pstr "\x7b\"name\": \"app\"\x7d"⟩

/-- A match record whose `dependencies` object has no `angular` key. -/
def noAngularRecord : MatchRecord :=
  ⟨⟨pstr "owner/repo"⟩, pstr "package.json",
   pstr "https://example/owner/repo/package.json",
   pstr "\x7b\"dependencies\": \x7b\"react\": \"18.0.0\"\x7d\x7d"⟩

/-- A match record whose `dependencies.angular` value is a list, not a
string. -/
def listVersionRecord : MatchRecord :=
  ⟨⟨pstr "owner/repo"⟩, pstr "package.json",
   pstr "https://example/owner/repo/package.json",
   pstr "\x7b\"dependencies\": \x7b\"angular\": [1, 2]\x7d\x7d"⟩

/-- C1: on a search result with exactly one match whose decoded content is
the valid JSON object of the spec's example, with the given repository full
name, path and html url, the run writes exactly the four expected lines, in
order, raises nothing and issues the one search call. -/
theorem single_match_exact_output :
    runProgram (.success [sampleRecord]) =
      ⟨[theSearchCall],
       [pstr "Repository: owner/repo",
        pstr "File path: package.json",
        pstr "URL: https://example/owner/repo/package.json",
        pstr "Angular JS: 1.2.3"],
       none⟩ := by
  rfl

/-- C2: when the search succeeds and yields no match records, the run prints
nothing, raises nothing and exits with status 0. -/
theorem empty_results_silent_success :
    runProgram (.success []) = ⟨[theSearchCall], [], none⟩ ∧
    exitCode (runProgram (.success [])) = 0 :=
  ⟨rfl, rfl⟩

/-- Helper: a record whose content fails to parse makes the loop body raise
the decode error before printing anything. -/
theorem processRecord_parse_error (r : MatchRecord) (e : JsonErr)
    (h : loads r.decoded_content = .error e) :
    processRecord r = .error (.jsonDecodeError e) := by
  simp [processRecord, h]

/-- Helper: when every earlier record succeeds and record `r` fails, the loop
emits exactly the earlier records' lines, then stops with the error; the
earlier prefix itself completes without error. -/
theorem runLoop_abort (pre : List MatchRecord) (r : MatchRecord)
    (post : List MatchRecord) (epr : PyError)
    (hpre : ∀ x ∈ pre, ∃ ls, processRecord x = .ok ls)
    (hr : processRecord r = .error epr) :
    runLoop (pre ++ r :: post) = ((runLoop pre).1, some epr) ∧
    (runLoop pre).2 = none := by
  induction pre with
  | nil => simp [runLoop, hr]
  | cons x pre ih =>
    obtain ⟨ls, hx⟩ := hpre x (by simp)
    obtain ⟨h1, h2⟩ := ih (fun y hy => hpre y (by simp [hy]))
    simp [runLoop, hx, h1, h2]

/-- C3: if a yielded record's decoded content is not valid JSON (and the
records before it process normally), the run stops with the uncaught parse
error and non-zero exit: exactly the earlier records' lines are printed —
nothing for the failing record or any later one. -/
theorem invalid_json_aborts_run (pre : List MatchRecord) (r : MatchRecord)
    (post : List MatchRecord) (e : JsonErr)
    (hpre : ∀ x ∈ pre, ∃ ls, processRecord x = .ok ls)
    (hbad : loads r.decoded_content = .error e) :
    runProgram (.success (pre ++ r :: post)) =
      ⟨[theSearchCall], (runLoop pre).1, some (.jsonDecodeError e)⟩ ∧
    (runLoop pre).2 = none ∧
    exitCode (runProgram (.success (pre ++ r :: post))) = 1 := by
  obtain ⟨h1, h2⟩ :=
    runLoop_abort pre r post (.jsonDecodeError e) hpre
      (processRecord_parse_error r e hbad)
  refine ⟨?_, h2, ?_⟩ <;> simp [runProgram, exitCode, h1]

/-- C3 witness: a good record, then an invalid-JSON record, then another
record; only the first record's four lines appear. -/
theorem invalid_json_aborts_run_witness :
    runProgram (.success ([sampleRecord] ++ invalidJsonRecord :: [sampleRecord])) =
      ⟨[theSearchCall], (runLoop [sampleRecord]).1,
       some (.jsonDecodeError (pstr "Expecting value"))⟩ ∧
    (runLoop [sampleRecord]).2 = none ∧
    exitCode (runProgram
      (.success ([sampleRecord] ++ invalidJsonRecord :: [sampleRecord]))) = 1 :=
  invalid_json_aborts_run [sampleRecord] invalidJsonRecord [sampleRecord]
    (pstr "Expecting value")
    (fun x hx => by
      simp at hx
      subst hx
      exact ⟨_, rfl⟩)
    rfl

/-- C4: if a record's content parses to an object without a `dependencies`
key, or whose `dependencies` object has no `angular` key, the loop body
raises the corresponding `KeyError` and none of the four lines of that
record are printed. -/
theorem missing_key_aborts (r : MatchRecord) (d : List (PyStr × JValue))
    (hparse : loads r.decoded_content = .ok (.jobj d)) :
    (dictGet d (pstr "dependencies") = none →
      processRecord r = .error (.keyError (pstr "dependencies")) ∧
      ∀ post, runLoop (r :: post) = ([], some (.keyError (pstr "dependencies")))) ∧
    (∀ d2, dictGet d (pstr "dependencies") = some (.jobj d2) →
      dictGet d2 (pstr "angular") = none →
      processRecord r = .error (.keyError (pstr "angular")) ∧
      ∀ post, runLoop (r :: post) = ([], some (.keyError (pstr "angular")))) := by
  constructor
  · intro hnone
    have hp : processRecord r = .error (.keyError (pstr "dependencies")) := by
      simp [processRecord, hparse, getItem, hnone]
    exact ⟨hp, fun post => by simp [runLoop, hp]⟩
  · intro d2 hdeps hnone
    have hp : processRecord r = .error (.keyError (pstr "angular")) := by
      simp [processRecord, hparse, getItem, hdeps, hnone]
    exact ⟨hp, fun post => by simp [runLoop, hp]⟩

/-- C4 witness: the theorem applied to a record without `dependencies` and to
a record whose `dependencies` lacks `angular`. -/
theorem missing_key_aborts_witness :
    (processRecord noDepsRecord = .error (.keyError (pstr "dependencies")) ∧
      runLoop [noDepsRecord] = ([], some (.keyError (pstr "dependencies")))) ∧
    (processRecord noAngularRecord = .error (.keyError (pstr "angular")) ∧
      runLoop [noAngularRecord] = ([], some (.keyError (pstr "angular")))) := by
  have h1 := (missing_key_aborts noDepsRecord _ rfl).1 rfl
  have h2 := (missing_key_aborts noAngularRecord _ rfl).2 _ rfl rfl
  exact ⟨⟨h1.1, h1.2 []⟩, ⟨h2.1, h2.2 []⟩⟩

/-- C5: if the search call raises, the run terminates at once with that
uncaught exception, no output and exit status 1; and in general any run that
ends with an uncaught exception exits non-zero — nothing is caught
anywhere. -/
theorem search_failure_propagates (e : PyError) :
    runProgram (.failure e) = ⟨[theSearchCall], [], some e⟩ ∧
    exitCode (runProgram (.failure e)) = 1 ∧
    (∀ o : SearchOutcome, (runProgram o).uncaught.isSome = true →
      exitCode (runProgram o) ≠ 0) := by
  refine ⟨rfl, rfl, ?_⟩
  intro o h
  cases ho : (runProgram o).uncaught with
  | none => rw [ho] at h; simp at h
  | some e2 => simp [exitCode, ho]

/-- C5 witness: the theorem applied to an authentication failure raised by
the search call. -/
theorem search_failure_propagates_witness :
    runProgram (.failure (.apiError (pstr "Bad credentials"))) =
      ⟨[theSearchCall], [], some (.apiError (pstr "Bad credentials"))⟩ ∧
    exitCode (runProgram (.failure (.apiError (pstr "Bad credentials")))) = 1 ∧
    exitCode (runProgram (.failure (.apiError (pstr "Bad credentials")))) ≠ 0 :=
  ⟨(search_failure_propagates (.apiError (pstr "Bad credentials"))).1,
   (search_failure_propagates (.apiError (pstr "Bad credentials"))).2.1,
   (search_failure_propagates (.apiError (pstr "Bad credentials"))).2.2 _ rfl⟩

/-- C10: when `dependencies.angular` exists with any value — also a
non-string one — the loop body does not fail: it prints the four lines, the
last one carrying the value's Python `str()` conversion. -/
theorem nonstring_version_printed (r : MatchRecord) (d d2 : List (PyStr × JValue))
    (v : JValue)
    (hparse : loads r.decoded_content = .ok (.jobj d))
    (hdeps : dictGet d (pstr "dependencies") = some (.jobj d2))
    (hang : dictGet d2 (pstr "angular") = some v) :
    processRecord r = .ok
      [pstr "Repository: " ++ r.repository.full_name,
       pstr "File path: " ++ r.path,
       pstr "URL: " ++ r.html_url,
       pstr "Angular JS: " ++ pyStrOf v] ∧
    runLoop [r] =
      ([pstr "Repository: " ++ r.repository.full_name,
        pstr "File path: " ++ r.path,
        pstr "URL: " ++ r.html_url,
        pstr "Angular JS: " ++ pyStrOf v], none) := by
  have hp : processRecord r = .ok
      [pstr "Repository: " ++ r.repository.full_name,
       pstr "File path: " ++ r.path,
       pstr "URL: " ++ r.html_url,
       pstr "Angular JS: " ++ pyStrOf v] := by
    simp [processRecord, hparse, getItem, hdeps, hang]
  exact ⟨hp, by simp [runLoop, hp]⟩

/-- C10 witness: the theorem applied to a record whose `angular` value is the
list `[1, 2]`; the last line shows the list's `str()` conversion. -/
theorem nonstring_version_printed_witness :
    processRecord listVersionRecord = .ok
      [pstr "Repository: owner/repo",
       pstr "File path: package.json",
       pstr "URL: https://example/owner/repo/package.json",
       pstr "Angular JS: [1, 2]"] ∧
    runLoop [listVersionRecord] =
      ([pstr "Repository: owner/repo",
        pstr "File path: package.json",
        pstr "URL: https://example/owner/repo/package.json",
        pstr "Angular JS: [1, 2]"], none) :=
  nonstring_version_printed listVersionRecord _ _ (.jarr [.jint 1, .jint 2])
    rfl rfl rfl

end GithubQuery
